import Mathlib

/-!
Verification of the ICME-rate analysis script (`icme_rate.py`).

The script computes yearly, data-coverage-corrected ICME rates per
spacecraft, aggregates them across spacecraft (NaN-aware statistics),
fits a linear sunspot-number-to-ICME-rate relation with propagated
uncertainty, composes error sources in quadrature, densifies yearly
prediction curves by spline interpolation, and integrates daily rate
curves over trajectory segments below a heliocentric-distance threshold.

The embedding below models the numerical core of the script.  Missing
data (numpy NaN) is represented by `Option`: `none` is NaN/undefined.
Exact rationals stand in for floating-point numbers; real numbers are
used where the source takes square roots (`np.std`, `np.sqrt`).
-/

/-- Round to the nearest integer, ties to even: the rounding mode of
numpy's `np.round`. -/
def roundHalfEven {α : Type} [LinearOrderedField α] [FloorRing α] (q : α) : ℤ :=
  if q - ⌊q⌋ < 1/2 then ⌊q⌋
  else if 1/2 < q - ⌊q⌋ then ⌊q⌋ + 1
  else if Even ⌊q⌋ then ⌊q⌋ else ⌊q⌋ + 1

/-- `np.round(x, 1)`: round to one decimal place, ties to even. -/
def np_round1 {α : Type} [LinearOrderedField α] [FloorRing α] (q : α) : α :=
  (roundHalfEven (10 * q) : α) / 10

/-! ## Stage 1: coverage-corrected yearly ICME rate

Source: `histvex=np.round(histvex1/total_data_days_yearly_vex*365.24,1)`
(and identically for the other spacecraft).  `histvex1` is the raw event
count of the year; `total_data_days_yearly_vex` is NaN when no data is
available for the year, so the corrected rate is NaN (`none`) there. -/

/-- Elementwise form of the source's corrected-rate computation:
`np.round(count / total_data_days * 365.24, 1)`, propagating NaN
coverage as `none`. -/
def histvex (histvex1 : ℕ) (total_data_days : Option ℚ) : Option ℚ :=
  total_data_days.map (fun d => np_round1 ((histvex1 : ℚ) / d * (36524/100)))

/-- The same computation without the final rounding: the full-precision
corrected rate `count / total_data_days * 365.24`. -/
def fullprec_rate (histvex1 : ℕ) (total_data_days : Option ℚ) : Option ℚ :=
  total_data_days.map (fun d => (histvex1 : ℚ) / d * (36524/100))

/-- Restatement of the spec's words: corrected rate = (event count in
year) / (available days) × 365.24, rounded to one decimal place. -/
def spec_corrected_rate (count : ℕ) (days : ℚ) : ℚ :=
  np_round1 ((count : ℚ) / days * (36524/100))

/-! ## Stage 2: NaN-aware cross-spacecraft statistics

Source: the `icrate` data frame, whose row `i` holds
`np.round(np.nanmedian([...]),1)`, `np.round(np.nanmean([...]),1)`,
`np.round(np.nanstd([...]),1)`, `np.nanmax([...])`, `np.nanmin([...])`
over the six per-spacecraft corrected rates of year `i`. -/

/-- The defined (non-NaN) entries of a list of optional rates: what the
`np.nan*` reductions actually operate on. -/
def definedRates (rs : List (Option ℚ)) : List ℚ :=
  rs.filterMap id

/-- `np.nanmean`: mean of the defined entries, NaN when none are defined. -/
def nanmean (rs : List (Option ℚ)) : Option ℚ :=
  if definedRates rs = [] then none
  else some ((definedRates rs).sum / (definedRates rs).length)

/-- Ascending sort, as numpy sorts before taking the median. -/
def sortRates (l : List ℚ) : List ℚ :=
  l.mergeSort (fun a b => decide (a ≤ b))

/-- Median of a sorted list: middle element for odd length, average of
the two middle elements for even length (numpy's interpolation). -/
def medianOfSorted (d : List ℚ) : ℚ :=
  if d.length % 2 = 1 then d.getD (d.length / 2) 0
  else (d.getD (d.length / 2 - 1) 0 + d.getD (d.length / 2) 0) / 2

/-- `np.nanmedian`: median of the defined entries, NaN when none are
defined. -/
def nanmedian (rs : List (Option ℚ)) : Option ℚ :=
  if definedRates rs = [] then none
  else some (medianOfSorted (sortRates (definedRates rs)))

/-- Maximum of a list of rationals, `none` on the empty list. -/
def listMax : List ℚ → Option ℚ
  | [] => none
  | x :: xs => some (xs.foldl max x)

/-- Minimum of a list of rationals, `none` on the empty list. -/
def listMin : List ℚ → Option ℚ
  | [] => none
  | x :: xs => some (xs.foldl min x)

/-- `np.nanmax`: maximum of the defined entries, NaN when none are
defined. -/
def nanmax (rs : List (Option ℚ)) : Option ℚ :=
  listMax (definedRates rs)

/-- `np.nanmin`: minimum of the defined entries, NaN when none are
defined. -/
def nanmin (rs : List (Option ℚ)) : Option ℚ :=
  listMin (definedRates rs)

/-- Population variance of the defined entries (`np.nanstd` squared),
NaN when none are defined. -/
def nanvariance (rs : List (Option ℚ)) : Option ℚ :=
  if definedRates rs = [] then none
  else some
    (((definedRates rs).map
        (fun x => (x - (definedRates rs).sum / (definedRates rs).length)^2)).sum
      / (definedRates rs).length)

/-- `np.nanstd`: population standard deviation of the defined entries. -/
noncomputable def nanstd (rs : List (Option ℚ)) : Option ℝ :=
  (nanvariance rs).map (fun v => Real.sqrt (v : ℝ))

/-- `icrate` column `mean1`: `np.round(np.nanmean(...), 1)`. -/
def icrate_mean1 (rs : List (Option ℚ)) : Option ℚ :=
  (nanmean rs).map np_round1

/-- `icrate` column `median1`: `np.round(np.nanmedian(...), 1)`. -/
def icrate_median1 (rs : List (Option ℚ)) : Option ℚ :=
  (nanmedian rs).map np_round1

/-- `icrate` column `std1`: `np.round(np.nanstd(...), 1)`. -/
noncomputable def icrate_std1 (rs : List (Option ℚ)) : Option ℝ :=
  (nanstd rs).map np_round1

/-- `icrate` column `max1`: `np.nanmax(...)` (not rounded again). -/
def icrate_max1 (rs : List (Option ℚ)) : Option ℚ :=
  nanmax rs

/-- `icrate` column `min1`: `np.nanmin(...)` (not rounded again). -/
def icrate_min1 (rs : List (Option ℚ)) : Option ℚ :=
  nanmin rs

/-- The per-spacecraft rate list that feeds an `icrate` row: Stage 1
applied to each (event count, available days) pair. -/
def icrate_input_rates (inputs : List (ℕ × Option ℚ)) : List (Option ℚ) :=
  inputs.map (fun p => histvex p.1 p.2)

/-- The same list without Stage 1's rounding: full-precision rates. -/
def fullprec_input_rates (inputs : List (ℕ × Option ℚ)) : List (Option ℚ) :=
  inputs.map (fun p => fullprec_rate p.1 p.2)

/-! ## Stage 3: sunspot-number-to-ICME-rate regression

Source: `linfit=scipy.stats.linregress(spots_corr,rc_rate_corr)` and

    def ssn_to_rate(ssn,fitresult):
        rate=linfit.slope*ssn+linfit.intercept
        rate_low=(linfit.slope-1*linfit.stderr)*ssn+linfit.intercept - mean_stddev
        rate_up=(linfit.slope+1*linfit.stderr)*ssn+linfit.intercept + mean_stddev
        return rate, rate_low, rate_up

where `mean_stddev` is the mean of the two reference cycles' values of
`np.std(ssn_to_rate(spots,linfit)[0]-rc_rate)` (using the earlier,
unwidened `ssn_to_rate`, whose first component is the same). -/

/-- The result of the linear fit: slope, intercept and standard error of
the slope, as exposed by `scipy.stats.linregress`. -/
structure LinFit where
  slope : ℚ
  intercept : ℚ
  stderr : ℚ

/-- The residual series `ssn_to_rate(spots,linfit)[0] - rc_rate` of one
reference cycle: fitted rate minus observed rate, pointwise. -/
def fit_residuals (lf : LinFit) (spots rc_rate : List ℚ) : List ℚ :=
  List.zipWith (fun s r => lf.slope * s + lf.intercept - r) spots rc_rate

/-- `np.mean` of a list of rationals. -/
def listMeanQ (l : List ℚ) : ℚ :=
  l.sum / l.length

/-- Population variance of a list of rationals (`np.std` squared). -/
def listVarQ (l : List ℚ) : ℚ :=
  (l.map (fun x => (x - listMeanQ l)^2)).sum / l.length

/-- `np.std`: population standard deviation of a list of rationals. -/
noncomputable def np_std (l : List ℚ) : ℝ :=
  Real.sqrt (listVarQ l : ℝ)

/-- `mean_stddev`: mean over the two reference cycles of the standard
deviation of (fitted rate − observed rate). -/
noncomputable def mean_stddev (lf : LinFit) (spots23 rc_rate23 spots24 rc_rate24 : List ℚ) : ℝ :=
  (np_std (fit_residuals lf spots23 rc_rate23) + np_std (fit_residuals lf spots24 rc_rate24)) / 2

/-- The source's (final) `ssn_to_rate`: central rate, lower band and
upper band for a sunspot number `ssn`. -/
noncomputable def ssn_to_rate (lf : LinFit) (spots23 rc_rate23 spots24 rc_rate24 : List ℚ)
    (ssn : ℚ) : ℝ × ℝ × ℝ :=
  ((lf.slope : ℝ) * ssn + lf.intercept,
   ((lf.slope : ℚ) - 1 * lf.stderr : ℚ) * (ssn : ℝ) + (lf.intercept : ℝ)
     - mean_stddev lf spots23 rc_rate23 spots24 rc_rate24,
   ((lf.slope : ℚ) + 1 * lf.stderr : ℚ) * (ssn : ℝ) + (lf.intercept : ℝ)
     + mean_stddev lf spots23 rc_rate23 spots24 rc_rate24)

/-- Restatement of the spec's words for the apply function:
`rate(ssn) = slope·ssn + intercept`, and the bands
`(slope ∓ stderr)·ssn + intercept` widened by `mean_stddev`. -/
noncomputable def spec_ssn_to_rate (lf : LinFit) (spots23 rc_rate23 spots24 rc_rate24 : List ℚ)
    (ssn : ℚ) : ℝ × ℝ × ℝ :=
  ((lf.slope : ℝ) * ssn + lf.intercept,
   (((lf.slope : ℝ) - lf.stderr) * ssn + lf.intercept)
     - mean_stddev lf spots23 rc_rate23 spots24 rc_rate24,
   (((lf.slope : ℝ) + lf.stderr) * ssn + lf.intercept)
     + mean_stddev lf spots23 rc_rate23 spots24 rc_rate24)

/-! ## Stage 3: error composition in quadrature

Source:
`ic_rate_25_pp_std=np.round(np.sqrt(ic_rate25_std_pp_ssnpred**2+ic_rate25_std_pp_ssnfit**2+ic_rate25_std**2),1)`
and the identical formula for the MC20 scenario. -/

/-- Elementwise form of the PP19 scenario's total error:
`np.round(np.sqrt(e1**2 + e2**2 + e3**2), 1)`. -/
noncomputable def ic_rate_25_pp_std (e1 e2 e3 : ℝ) : ℝ :=
  np_round1 (Real.sqrt (e1^2 + e2^2 + e3^2))

/-- Elementwise form of the MC20 scenario's total error, identical to
the PP19 formula. -/
noncomputable def ic_rate_25_mc20_std (e1 e2 e3 : ℝ) : ℝ :=
  np_round1 (Real.sqrt (e1^2 + e2^2 + e3^2))

/-! ## Stage 3: densification interpolant domain behaviour

Source: `fpp = interp1d(yearly_mid_times_25_num, icmes_predict_25pp, kind=2)`
(and `fpp_low`, `fpp_high`, `fmc`, `fmc_low`, `fmc_high` likewise). -/

/-- Failure conditions of an interpolant query. -/
inductive InterpError where
  | outOfDomain
deriving DecidableEq

/-- Modelled from the spec: the densification interpolant built by
`interp1d(x, y, kind=2)`.  The quadratic-spline evaluation itself is
library code outside this repository and is abstracted as `f`; the
domain contract is scipy's default `bounds_error=True` behaviour that
the script relies on: a query below the first or above the last control
point raises an error instead of extrapolating. -/
def interp1d_eval (xs : List ℚ) (f : ℚ → ℚ) (t : ℚ) : Except InterpError ℚ :=
  match xs.head?, xs.getLast? with
  | some x0, some xn =>
      if t < x0 ∨ xn < t then .error .outOfDomain else .ok (f t)
  | _, _ => .error .outOfDomain

/-! ## Stage 4: mission-exposure integration

Source:

    psp_l03=np.where(psp_r < 0.3)[0]
    icmes_psp_predict_mc_daily=fmc(times_25_daily_icrange_num)/365.24
    np.sum(icmes_psp_predict_mc_daily[psp_l03])

and the same for the low and high curves. -/

/-- `np.where(psp_r < thresh)[0]`: the indices at which the heliocentric
distance is below the threshold. -/
def psp_below_indices (psp_r : List ℚ) (thresh : ℚ) : List ℕ :=
  (List.range psp_r.length).filter (fun i => decide (psp_r.getD i 0 < thresh))

/-- `fmc(times)/365.24`: the daily-resolution per-day rate curve obtained
from the yearly-rate curve values. -/
def icmes_psp_predict_mc_daily (fmc_vals : List ℚ) : List ℚ :=
  fmc_vals.map (fun v => v / (36524/100))

/-- `np.sum(curve[idx])`: sum of a curve over a list of indices. -/
def sum_at (v : List ℚ) (idx : List ℕ) : ℚ :=
  (idx.map (fun i => v.getD i 0)).sum

/-- The source's expected-count triple for one threshold: the mean, low
and high per-day curves summed over the below-threshold indices. -/
def psp_expected_counts (fmid flow fhigh : List ℚ) (psp_r : List ℚ) (thresh : ℚ) : ℚ × ℚ × ℚ :=
  (sum_at (icmes_psp_predict_mc_daily fmid) (psp_below_indices psp_r thresh),
   sum_at (icmes_psp_predict_mc_daily flow) (psp_below_indices psp_r thresh),
   sum_at (icmes_psp_predict_mc_daily fhigh) (psp_below_indices psp_r thresh))

/-- Restatement of the spec's words: select the indices where distance
is below the threshold, divide each selected yearly-rate value by
365.24, and sum, independently for the mean, lower and upper curves. -/
def spec_mission_exposure (fmid flow fhigh : List ℚ) (psp_r : List ℚ) (thresh : ℚ) :
    ℚ × ℚ × ℚ :=
  (((psp_below_indices psp_r thresh).map (fun i => fmid.getD i 0 / (36524/100))).sum,
   ((psp_below_indices psp_r thresh).map (fun i => flow.getD i 0 / (36524/100))).sum,
   ((psp_below_indices psp_r thresh).map (fun i => fhigh.getD i 0 / (36524/100))).sum)

/-! ## Stage 1 special case: MAVEN coverage

Source (inside the loop over years `i`):

    thisyear=np.where(np.logical_and((mav.time > yearly_start_times[i]),(mav.time < yearly_end_times[i])))[0]
    datas=np.size(np.where(np.isnan(mav.bt[thisyear])==False))
    datas_ind=np.where(np.isnan(mav.bt[thisyear])==False)
    alldiff=np.diff(parse_time(mav.time[datas_ind]).plot_date)
    smalldiff_ind=np.where(alldiff <0.25)
    if datas >0: total_data_days_yearly_mav[i]=np.sum(alldiff[smalldiff_ind])

Note that `datas_ind` holds positions RELATIVE to the `thisyear` slice,
yet is used to index the full `mav.time` array. -/

/-- `thisyear`: indices of MAVEN samples whose time lies strictly inside
the year window. -/
def thisyear_indices (time : List ℚ) (y0 y1 : ℚ) : List ℕ :=
  (List.range time.length).filter
    (fun i => decide (y0 < time.getD i 0 ∧ time.getD i 0 < y1))

/-- `datas_ind`: positions, relative to the `thisyear` slice, of the
samples with a defined (non-NaN) magnitude measurement. -/
def mav_datas_ind (time : List ℚ) (bt : List (Option ℚ)) (y0 y1 : ℚ) : List ℕ :=
  (List.range (thisyear_indices time y0 y1).length).filter
    (fun j => (bt.getD ((thisyear_indices time y0 y1).getD j 0) none).isSome)

/-- `np.diff`: differences of consecutive list entries. -/
def np_diff (l : List ℚ) : List ℚ :=
  List.zipWith (fun a b => a - b) l.tail l

/-- The source's MAVEN available-days computation for one year: the
relative positions `datas_ind` index the FULL time array (as the code
does), the consecutive differences below 0.25 day are summed, and the
result is NaN when no defined sample exists in the year. -/
def total_data_days_yearly_mav (time : List ℚ) (bt : List (Option ℚ)) (y0 y1 : ℚ) :
    Option ℚ :=
  if (mav_datas_ind time bt y0 y1).length = 0 then none
  else some
    (((np_diff ((mav_datas_ind time bt y0 y1).map (fun j => time.getD j 0))).filter
        (fun d => decide (d < 1/4))).sum)

/-- The computation the claim describes: the times of the in-year
defined samples themselves (positions resolved through `thisyear`), with
consecutive differences below 0.25 day summed. -/
def total_data_days_yearly_mav_claim (time : List ℚ) (bt : List (Option ℚ)) (y0 y1 : ℚ) :
    Option ℚ :=
  if (mav_datas_ind time bt y0 y1).length = 0 then none
  else some
    (((np_diff ((mav_datas_ind time bt y0 y1).map
          (fun j => time.getD ((thisyear_indices time y0 y1).getD j 0) 0))).filter
        (fun d => decide (d < 1/4))).sum)

/-! ## Helper lemmas -/

theorem floor_le_roundHalfEven {α : Type} [LinearOrderedField α] [FloorRing α] (q : α) :
    ⌊q⌋ ≤ roundHalfEven q := by
  unfold roundHalfEven
  split_ifs <;> omega

theorem roundHalfEven_le_ceil {α : Type} [LinearOrderedField α] [FloorRing α] (q : α) :
    roundHalfEven q ≤ ⌈q⌉ := by
  unfold roundHalfEven
  split_ifs with h1 h2 h3
  · exact Int.floor_le_ceil q
  · have : (⌊q⌋ : α) < q := by linarith
    have := Int.lt_ceil.mpr this
    omega
  · exact Int.floor_le_ceil q
  · have h4 : q - ⌊q⌋ = 1/2 := le_antisymm (not_lt.mp h2) (not_lt.mp h1)
    have : (⌊q⌋ : α) < q := by
      have : (0:α) < 1/2 := by norm_num
      linarith
    have := Int.lt_ceil.mpr this
    omega

theorem roundHalfEven_eq_floor {α : Type} [LinearOrderedField α] [FloorRing α] {q : α}
    (h : q - ⌊q⌋ < 1/2) : roundHalfEven q = ⌊q⌋ := by
  unfold roundHalfEven
  rw [if_pos h]

theorem np_round1_zero {α : Type} [LinearOrderedField α] [FloorRing α] :
    np_round1 (0 : α) = 0 := by
  have h : roundHalfEven ((10 : α) * 0) = 0 := by
    rw [mul_zero, roundHalfEven_eq_floor (by norm_num)]
    exact Int.floor_zero
  rw [np_round1, h]
  norm_num

theorem np_round1_bounds {x : ℚ} {ka kb : ℤ} (h1 : (ka : ℚ)/10 ≤ x) (h2 : x ≤ (kb : ℚ)/10) :
    (ka : ℚ)/10 ≤ np_round1 x ∧ np_round1 x ≤ (kb : ℚ)/10 := by
  have hlo : ka ≤ roundHalfEven (10 * x) := by
    have : ka ≤ ⌊(10 : ℚ) * x⌋ := Int.le_floor.mpr (by linarith)
    exact le_trans this (floor_le_roundHalfEven _)
  have hhi : roundHalfEven (10 * x) ≤ kb := by
    have : ⌈(10 : ℚ) * x⌉ ≤ kb := Int.ceil_le.mpr (by linarith)
    exact le_trans (roundHalfEven_le_ceil _) this
  have hlo' : (ka : ℚ) ≤ (roundHalfEven (10 * x) : ℚ) := Int.cast_le.mpr hlo
  have hhi' : (roundHalfEven (10 * x) : ℚ) ≤ (kb : ℚ) := Int.cast_le.mpr hhi
  rw [np_round1]
  constructor <;> linarith

theorem foldl_min_le_init (xs : List ℚ) (x : ℚ) : xs.foldl min x ≤ x := by
  induction xs generalizing x with
  | nil => exact le_refl x
  | cons a as ih =>
    calc as.foldl min (min x a) ≤ min x a := ih (min x a)
    _ ≤ x := min_le_left x a

theorem foldl_min_le_mem {xs : List ℚ} {x y : ℚ} (hy : y ∈ xs) : xs.foldl min x ≤ y := by
  induction xs generalizing x with
  | nil => simp at hy
  | cons a as ih =>
    rcases List.mem_cons.mp hy with h | h
    · subst h
      calc as.foldl min (min x y) ≤ min x y := foldl_min_le_init as (min x y)
      _ ≤ y := min_le_right x y
    · exact ih h

theorem foldl_min_mem (xs : List ℚ) (x : ℚ) : xs.foldl min x ∈ x :: xs := by
  induction xs generalizing x with
  | nil => simp
  | cons a as ih =>
    have h := ih (min x a)
    rcases List.mem_cons.mp h with h1 | h1
    · rcases min_choice x a with h2 | h2
      · rw [List.foldl_cons, h1, h2]; exact List.mem_cons_self x (a :: as)
      · rw [List.foldl_cons, h1, h2]
        exact List.mem_cons_of_mem x (List.mem_cons_self a as)
    · rw [List.foldl_cons]
      exact List.mem_cons_of_mem x (List.mem_cons_of_mem a h1)

theorem init_le_foldl_max (xs : List ℚ) (x : ℚ) : x ≤ xs.foldl max x := by
  induction xs generalizing x with
  | nil => exact le_refl x
  | cons a as ih =>
    calc x ≤ max x a := le_max_left x a
    _ ≤ as.foldl max (max x a) := ih (max x a)

theorem mem_le_foldl_max {xs : List ℚ} {x y : ℚ} (hy : y ∈ xs) : y ≤ xs.foldl max x := by
  induction xs generalizing x with
  | nil => simp at hy
  | cons a as ih =>
    rcases List.mem_cons.mp hy with h | h
    · subst h
      calc y ≤ max x y := le_max_right x y
      _ ≤ as.foldl max (max x y) := init_le_foldl_max as (max x y)
    · exact ih h

theorem foldl_max_mem (xs : List ℚ) (x : ℚ) : xs.foldl max x ∈ x :: xs := by
  induction xs generalizing x with
  | nil => simp
  | cons a as ih =>
    have h := ih (max x a)
    rcases List.mem_cons.mp h with h1 | h1
    · rcases max_choice x a with h2 | h2
      · rw [List.foldl_cons, h1, h2]; exact List.mem_cons_self x (a :: as)
      · rw [List.foldl_cons, h1, h2]
        exact List.mem_cons_of_mem x (List.mem_cons_self a as)
    · rw [List.foldl_cons]
      exact List.mem_cons_of_mem x (List.mem_cons_of_mem a h1)

theorem mean_bounds {l : List ℚ} {m M : ℚ} (hne : l ≠ [])
    (hm : ∀ y ∈ l, m ≤ y) (hM : ∀ y ∈ l, y ≤ M) :
    m ≤ l.sum / l.length ∧ l.sum / l.length ≤ M := by
  have hl : 0 < (l.length : ℚ) := by
    have := List.length_pos.mpr hne
    exact_mod_cast this
  have hlo : (l.length : ℚ) * m ≤ l.sum := by
    have := List.card_nsmul_le_sum l m hm
    rwa [nsmul_eq_mul] at this
  have hhi : l.sum ≤ (l.length : ℚ) * M := by
    have := List.sum_le_card_nsmul l M hM
    rwa [nsmul_eq_mul] at this
  constructor
  · rw [le_div_iff₀ hl]; linarith
  · rw [div_le_iff₀ hl]; linarith

theorem medianOfSorted_bounds {d : List ℚ} {m M : ℚ} (hne : d ≠ [])
    (hm : ∀ y ∈ d, m ≤ y) (hM : ∀ y ∈ d, y ≤ M) :
    m ≤ medianOfSorted d ∧ medianOfSorted d ≤ M := by
  have hlen : 0 < d.length := List.length_pos.mpr hne
  have h2 : d.length / 2 < d.length := by omega
  have hmem2 : d.getD (d.length / 2) 0 ∈ d := by
    rw [List.getD_eq_getElem _ _ h2]
    exact List.getElem_mem h2
  unfold medianOfSorted
  split_ifs with hodd
  · exact ⟨hm _ hmem2, hM _ hmem2⟩
  · have h1 : d.length / 2 - 1 < d.length := by omega
    have hmem1 : d.getD (d.length / 2 - 1) 0 ∈ d := by
      rw [List.getD_eq_getElem _ _ h1]
      exact List.getElem_mem h1
    constructor
    · have := hm _ hmem1
      have := hm _ hmem2
      linarith
    · have := hM _ hmem1
      have := hM _ hmem2
      linarith

theorem definedRates_cons_none (rs : List (Option ℚ)) :
    definedRates (none :: rs) = definedRates rs := by
  simp [definedRates]

theorem definedRates_eq_nil {rs : List (Option ℚ)} (h : ∀ x ∈ rs, x = none) :
    definedRates rs = [] := by
  refine List.filterMap_eq_nil_iff.mpr ?_
  intro a ha
  rw [h a ha]
  rfl

theorem sortRates_perm (l : List ℚ) : (sortRates l).Perm l :=
  List.mergeSort_perm l _

theorem sortRates_ne_nil {l : List ℚ} (h : l ≠ []) : sortRates l ≠ [] := by
  intro hcon
  have := (sortRates_perm l).length_eq
  rw [hcon] at this
  exact h (List.eq_nil_of_length_eq_zero this.symm)

theorem np_round1_eval_lt {α : Type} [LinearOrderedField α] [FloorRing α] {q : α} {k : ℤ}
    (h1 : (k : α) ≤ 10*q) (h2 : 10*q < (k : α) + 1) (h3 : 10*q - (k : α) < 1/2) :
    np_round1 q = (k : α)/10 := by
  have hf : ⌊(10 : α) * q⌋ = k := by
    rw [Int.floor_eq_iff]
    exact ⟨h1, h2⟩
  have hr : roundHalfEven ((10 : α) * q) = k := by
    rw [roundHalfEven_eq_floor (by rw [hf]; exact h3)]
    exact hf
  rw [np_round1, hr]

theorem np_round1_eval_gt {α : Type} [LinearOrderedField α] [FloorRing α] {q : α} {k : ℤ}
    (h1 : (k : α) ≤ 10*q) (h2 : 10*q < (k : α) + 1) (h3 : 1/2 < 10*q - (k : α)) :
    np_round1 q = ((k : α) + 1)/10 := by
  have hf : ⌊(10 : α) * q⌋ = k := by
    rw [Int.floor_eq_iff]
    exact ⟨h1, h2⟩
  have hr : roundHalfEven ((10 : α) * q) = k + 1 := by
    unfold roundHalfEven
    rw [hf, if_neg (by linarith), if_pos (by linarith)]
  rw [np_round1, hr]
  push_cast
  ring

theorem np_round1_intCast {α : Type} [LinearOrderedField α] [FloorRing α] (k : ℤ) :
    np_round1 ((k : α)) = (k : α) := by
  have h : np_round1 ((k : α)) = ((10 * k : ℤ) : α)/10 := by
    refine np_round1_eval_lt ?_ ?_ ?_ <;> push_cast <;> linarith
  rw [h]
  push_cast
  ring

/-! ## Claims -/

/-- C1: for every spacecraft-year with defined non-zero available observation
days, the coverage-corrected yearly rate is (event count)/(available days)
× 365.24 rounded to one decimal place; 10 events over 300.0 available days
give the full-precision rate 9131/750 = 12.1746…, reported as 12.2. -/
theorem claim_C1 :
    (∀ (c : ℕ) (d : ℚ), 0 < d → histvex c (some d) = some (spec_corrected_rate c d)) ∧
    (10 : ℚ) / 300 * (36524/100) = 9131/750 ∧
    histvex 10 (some 300) = some (61/5) := by
  refine ⟨fun c d _ => rfl, by norm_num, ?_⟩
  show some (np_round1 ((10 : ℚ) / 300 * (36524/100))) = some (61/5)
  have hq : (10 : ℚ) / 300 * (36524/100) = 9131/750 := by norm_num
  have h : np_round1 (9131/750 : ℚ) = ((121 : ℤ) + 1 : ℚ)/10 := by
    refine np_round1_eval_gt ?_ ?_ ?_ <;> norm_num
  rw [hq, h]
  norm_num

/-- C1 witness: the corrected rate at 10 events and 300.0 available days. -/
theorem claim_C1_witness :
    (0 : ℚ) < 300 ∧ histvex 10 (some 300) = some (spec_corrected_rate 10 300) :=
  ⟨by norm_num, claim_C1.1 10 300 (by norm_num)⟩

/-- C2 counterexample: with a single spacecraft reporting 10 events over 300.0
available days, the Stage-2 max statistic of that year is 12.2 — the
already-rounded per-spacecraft rate — while the full-precision rate is
9131/750 = 12.1746…, so the cross-spacecraft statistics are computed from the
rounded rates, not the full-precision ones. -/
theorem claim_C2_counterexample :
    icrate_max1 (icrate_input_rates [(10, some 300)]) = some (61/5) ∧
    nanmax (fullprec_input_rates [(10, some 300)]) = some (9131/750) ∧
    (61/5 : ℚ) ≠ 9131/750 := by
  have hq : (10 : ℚ) / 300 * (36524/100) = 9131/750 := by norm_num
  have h : np_round1 (9131/750 : ℚ) = ((121 : ℤ) + 1 : ℚ)/10 := by
    refine np_round1_eval_gt ?_ ?_ ?_ <;> norm_num
  refine ⟨?_, ?_, by norm_num⟩
  · show icrate_max1 [histvex 10 (some 300)] = some (61/5)
    have h1 : histvex 10 (some 300) = some (np_round1 ((10 : ℚ) / 300 * (36524/100))) := rfl
    have h2 : icrate_max1 [histvex 10 (some 300)]
        = some (np_round1 ((10 : ℚ) / 300 * (36524/100))) := rfl
    rw [h2, hq, h]
    norm_num
  · show nanmax [fullprec_rate 10 (some 300)] = some (9131/750)
    have h2 : nanmax [fullprec_rate 10 (some 300)]
        = some ((10 : ℚ) / 300 * (36524/100)) := rfl
    rw [h2, hq]

theorem input_rates_are_rounded (inputs : List (ℕ × Option ℚ)) :
    icrate_input_rates inputs = (fullprec_input_rates inputs).map (Option.map np_round1) := by
  simp only [icrate_input_rates, fullprec_input_rates, List.map_map]
  refine List.map_congr_left ?_
  intro p _
  show histvex p.1 p.2 = (Option.map np_round1 ∘ fun p => fullprec_rate p.1 p.2) p
  cases hp : p.2 <;> simp [histvex, fullprec_rate, hp, Function.comp]

/-- C2 amended: the per-spacecraft rates are rounded to one decimal place by
Stage 1 itself, so each year's Stage-2 statistics (mean, median, standard
deviation, max, min) are computed from the already-rounded per-spacecraft
rates, the mean/median/std being rounded once more for reporting. -/
theorem claim_C2 (inputs : List (ℕ × Option ℚ)) :
    icrate_mean1 (icrate_input_rates inputs)
      = icrate_mean1 ((fullprec_input_rates inputs).map (Option.map np_round1)) ∧
    icrate_median1 (icrate_input_rates inputs)
      = icrate_median1 ((fullprec_input_rates inputs).map (Option.map np_round1)) ∧
    icrate_std1 (icrate_input_rates inputs)
      = icrate_std1 ((fullprec_input_rates inputs).map (Option.map np_round1)) ∧
    icrate_max1 (icrate_input_rates inputs)
      = icrate_max1 ((fullprec_input_rates inputs).map (Option.map np_round1)) ∧
    icrate_min1 (icrate_input_rates inputs)
      = icrate_min1 ((fullprec_input_rates inputs).map (Option.map np_round1)) := by
  rw [input_rates_are_rounded]
  exact ⟨rfl, rfl, rfl, rfl, rfl⟩

theorem np_round1_ten : np_round1 (10 : ℚ) = 10 := by
  have h : np_round1 (10 : ℚ) = ((100 : ℤ) : ℚ)/10 :=
    np_round1_eval_lt (by norm_num) (by norm_num) (by norm_num)
  rw [h]
  norm_num

/-- C3: an undefined coverage makes the corrected rate undefined (not zero,
not an error); an undefined rate is excluded from every Stage-2 statistic of
its year; a year in which every spacecraft is undefined has all five
statistics undefined; and the rates {10.0, undefined} give
mean = median = max = min = 10.0 and standard deviation 0.0. -/
theorem claim_C3 :
    (∀ c : ℕ, histvex c none = none) ∧
    (∀ rs : List (Option ℚ),
      icrate_mean1 (none :: rs) = icrate_mean1 rs ∧
      icrate_median1 (none :: rs) = icrate_median1 rs ∧
      icrate_std1 (none :: rs) = icrate_std1 rs ∧
      icrate_max1 (none :: rs) = icrate_max1 rs ∧
      icrate_min1 (none :: rs) = icrate_min1 rs) ∧
    (∀ rs : List (Option ℚ), (∀ x ∈ rs, x = none) →
      icrate_mean1 rs = none ∧ icrate_median1 rs = none ∧ icrate_std1 rs = none ∧
      icrate_max1 rs = none ∧ icrate_min1 rs = none) ∧
    (icrate_mean1 [some 10, none] = some 10 ∧
     icrate_median1 [some 10, none] = some 10 ∧
     icrate_max1 [some 10, none] = some 10 ∧
     icrate_min1 [some 10, none] = some 10 ∧
     icrate_std1 [some 10, none] = some 0) := by
  refine ⟨fun c => rfl, ?_, ?_, ?_, ?_, ?_, ?_, ?_⟩
  · intro rs
    refine ⟨?_, ?_, ?_, ?_, ?_⟩
    · simp only [icrate_mean1, nanmean, definedRates_cons_none]
    · simp only [icrate_median1, nanmedian, definedRates_cons_none]
    · simp only [icrate_std1, nanstd, nanvariance, definedRates_cons_none]
    · simp only [icrate_max1, nanmax, definedRates_cons_none]
    · simp only [icrate_min1, nanmin, definedRates_cons_none]
  · intro rs h
    have hd := definedRates_eq_nil h
    refine ⟨?_, ?_, ?_, ?_, ?_⟩
    · simp [icrate_mean1, nanmean, hd]
    · simp [icrate_median1, nanmedian, hd]
    · simp [icrate_std1, nanstd, nanvariance, hd]
    · simp [icrate_max1, nanmax, hd, listMax]
    · simp [icrate_min1, nanmin, hd, listMin]
  · simp [icrate_mean1, nanmean, definedRates, np_round1_ten]
  · simp [icrate_median1, nanmedian, definedRates, sortRates, medianOfSorted, np_round1_ten]
  · simp [icrate_max1, nanmax, definedRates, listMax]
  · simp [icrate_min1, nanmin, definedRates, listMin]
  · simp [icrate_std1, nanstd, nanvariance, definedRates, Real.sqrt_zero, np_round1_zero]

/-- C3 witness: a year in which both spacecraft are undefined has (for
example) an undefined mean. -/
theorem claim_C3_witness :
    (∀ x ∈ ([none, none] : List (Option ℚ)), x = none) ∧
    icrate_mean1 [none, none] = none := by
  have h : ∀ x ∈ ([none, none] : List (Option ℚ)), x = none := by
    intro x hx
    rcases List.mem_cons.mp hx with h1 | h1
    · exact h1
    · rcases List.mem_cons.mp h1 with h2 | h2
      · exact h2
      · simp at h2
  exact ⟨h, (claim_C3.2.2.1 [none, none] h).1⟩

/-- Ordering of the `icrate` statistics over any rate list whose defined
entries are one-decimal values (as the Stage-1 rounding guarantees). -/
theorem icrate_row_ordered (rs : List (Option ℚ)) (hne : definedRates rs ≠ [])
    (hmul : ∀ x ∈ definedRates rs, ∃ k : ℤ, x = (k : ℚ)/10) :
    ∃ mn mx me md : ℚ,
      icrate_min1 rs = some mn ∧ icrate_max1 rs = some mx ∧
      icrate_mean1 rs = some me ∧ icrate_median1 rs = some md ∧
      mn ≤ me ∧ me ≤ mx ∧ mn ≤ md ∧ md ≤ mx := by
  obtain ⟨x, xs, hD⟩ : ∃ x xs, definedRates rs = x :: xs := by
    cases h : definedRates rs with
    | nil => exact absurd h hne
    | cons a as => exact ⟨a, as, rfl⟩
  have hmn_le : ∀ y ∈ definedRates rs, xs.foldl min x ≤ y := by
    rw [hD]
    intro y hy
    rcases List.mem_cons.mp hy with h | h
    · rw [h]; exact foldl_min_le_init xs x
    · exact foldl_min_le_mem h
  have hle_mx : ∀ y ∈ definedRates rs, y ≤ xs.foldl max x := by
    rw [hD]
    intro y hy
    rcases List.mem_cons.mp hy with h | h
    · rw [h]; exact init_le_foldl_max xs x
    · exact mem_le_foldl_max h
  obtain ⟨kmn, hkmn⟩ : ∃ k : ℤ, xs.foldl min x = (k : ℚ)/10 := by
    refine hmul _ ?_
    rw [hD]
    exact foldl_min_mem xs x
  obtain ⟨kmx, hkmx⟩ : ∃ k : ℤ, xs.foldl max x = (k : ℚ)/10 := by
    refine hmul _ ?_
    rw [hD]
    exact foldl_max_mem xs x
  have hmean := mean_bounds (hD ▸ List.cons_ne_nil x xs) hmn_le hle_mx
  have hmean_round := np_round1_bounds (hkmn ▸ hmean.1) (hkmx ▸ hmean.2)
  have hmed_pre : ∀ y ∈ sortRates (definedRates rs), xs.foldl min x ≤ y ∧ y ≤ xs.foldl max x := by
    intro y hy
    have hy' : y ∈ definedRates rs := (sortRates_perm (definedRates rs)).mem_iff.mp hy
    exact ⟨hmn_le y hy', hle_mx y hy'⟩
  have hmed := medianOfSorted_bounds (sortRates_ne_nil hne)
    (fun y hy => (hmed_pre y hy).1) (fun y hy => (hmed_pre y hy).2)
  have hmed_round := np_round1_bounds (hkmn ▸ hmed.1) (hkmx ▸ hmed.2)
  refine ⟨xs.foldl min x, xs.foldl max x,
    np_round1 ((definedRates rs).sum / (definedRates rs).length),
    np_round1 (medianOfSorted (sortRates (definedRates rs))), ?_, ?_, ?_, ?_, ?_, ?_, ?_, ?_⟩
  · simp only [icrate_min1, nanmin, hD, listMin]
  · simp only [icrate_max1, nanmax, hD, listMax]
  · simp only [icrate_mean1, nanmean, if_neg hne, Option.map_some']
  · simp only [icrate_median1, nanmedian, if_neg hne, Option.map_some']
  · rw [hkmn]; exact hmean_round.1
  · rw [hkmx]; exact hmean_round.2
  · rw [hkmn]; exact hmed_round.1
  · rw [hkmx]; exact hmed_round.2

/-- Every defined rate the Stage-1 pipeline produces is a one-decimal
value, because Stage 1 rounds it to one decimal. -/
theorem input_rates_tenths (inputs : List (ℕ × Option ℚ)) :
    ∀ x ∈ definedRates (icrate_input_rates inputs), ∃ k : ℤ, x = (k : ℚ)/10 := by
  intro x hx
  simp only [definedRates, icrate_input_rates, List.mem_filterMap, List.mem_map, id] at hx
  obtain ⟨o, ⟨p, _, hpo⟩, ho⟩ := hx
  rw [← hpo] at ho
  cases hp2 : p.2 with
  | none => rw [hp2] at ho; exact absurd ho (by simp [histvex])
  | some d =>
    rw [hp2] at ho
    have hx' : x = np_round1 ((p.1 : ℚ) / d * (36524/100)) := by
      have : histvex p.1 (some d) = some (np_round1 ((p.1 : ℚ) / d * (36524/100))) := rfl
      rw [this] at ho
      exact (Option.some_injective ℚ ho).symm
    exact ⟨roundHalfEven (10 * ((p.1 : ℚ) / d * (36524/100))), hx'⟩

/-- C4: for every Stage-1 input in which at least one spacecraft-year has a
defined corrected rate, the Stage-2 statistics of the resulting rates
satisfy min ≤ mean ≤ max and min ≤ median ≤ max, rounding of the reported
mean and median included. -/
theorem claim_C4 (inputs : List (ℕ × Option ℚ))
    (hne : definedRates (icrate_input_rates inputs) ≠ []) :
    ∃ mn mx me md : ℚ,
      icrate_min1 (icrate_input_rates inputs) = some mn ∧
      icrate_max1 (icrate_input_rates inputs) = some mx ∧
      icrate_mean1 (icrate_input_rates inputs) = some me ∧
      icrate_median1 (icrate_input_rates inputs) = some md ∧
      mn ≤ me ∧ me ≤ mx ∧ mn ≤ md ∧ md ≤ mx :=
  icrate_row_ordered _ hne (input_rates_tenths inputs)

/-- C4 witness: one spacecraft with 10 events over 300.0 available days has
a defined rate, and the resulting statistics are ordered as the claim
states. -/
theorem claim_C4_witness :
    definedRates (icrate_input_rates [(10, some 300)]) ≠ [] ∧
    (∃ mn mx me md : ℚ,
      icrate_min1 (icrate_input_rates [(10, some 300)]) = some mn ∧
      icrate_max1 (icrate_input_rates [(10, some 300)]) = some mx ∧
      icrate_mean1 (icrate_input_rates [(10, some 300)]) = some me ∧
      icrate_median1 (icrate_input_rates [(10, some 300)]) = some md ∧
      mn ≤ me ∧ me ≤ mx ∧ mn ≤ md ∧ md ≤ mx) := by
  have hne : definedRates (icrate_input_rates [(10, some 300)]) ≠ [] := by
    simp [definedRates, icrate_input_rates, histvex]
  exact ⟨hne, claim_C4 [(10, some 300)] hne⟩

/-- C5: for every sunspot number the apply function returns
rate = slope·ssn + intercept,
rate_low = (slope − stderr)·ssn + intercept − mean_stddev and
rate_up = (slope + stderr)·ssn + intercept + mean_stddev, with `mean_stddev`
the mean over the two reference cycles of the standard deviation of
(fitted − observed). -/
theorem claim_C5 (lf : LinFit) (s23 r23 s24 r24 : List ℚ) (ssn : ℚ) :
    ssn_to_rate lf s23 r23 s24 r24 ssn = spec_ssn_to_rate lf s23 r23 s24 r24 ssn ∧
    mean_stddev lf s23 r23 s24 r24
      = (np_std (fit_residuals lf s23 r23) + np_std (fit_residuals lf s24 r24)) / 2 := by
  refine ⟨?_, rfl⟩
  unfold ssn_to_rate spec_ssn_to_rate
  refine Prod.ext rfl (Prod.ext ?_ ?_) <;> simp only <;> push_cast <;> ring

/-- C10: for every non-negative sunspot number, and non-negative slope
standard error (as `scipy.stats.linregress` returns), the three returned
values are ordered rate_low ≤ rate ≤ rate_up, because the empirical spread
`mean_stddev` is an average of standard deviations and hence non-negative. -/
theorem claim_C10 (lf : LinFit) (s23 r23 s24 r24 : List ℚ) (ssn : ℚ)
    (h1 : 0 ≤ ssn) (h2 : 0 ≤ lf.stderr) :
    (ssn_to_rate lf s23 r23 s24 r24 ssn).2.1 ≤ (ssn_to_rate lf s23 r23 s24 r24 ssn).1 ∧
    (ssn_to_rate lf s23 r23 s24 r24 ssn).1 ≤ (ssn_to_rate lf s23 r23 s24 r24 ssn).2.2 := by
  have hms : 0 ≤ mean_stddev lf s23 r23 s24 r24 := by
    unfold mean_stddev np_std
    have ha := Real.sqrt_nonneg ((listVarQ (fit_residuals lf s23 r23) : ℚ) : ℝ)
    have hb := Real.sqrt_nonneg ((listVarQ (fit_residuals lf s24 r24) : ℚ) : ℝ)
    linarith
  have hs : (0:ℝ) ≤ (lf.stderr : ℝ) * (ssn : ℝ) :=
    mul_nonneg (by exact_mod_cast h2) (by exact_mod_cast h1)
  unfold ssn_to_rate
  constructor <;> simp only <;> push_cast <;> nlinarith

/-- C10 witness: the ordering at the concrete fit (slope 1, intercept 2,
standard error 1), empty residual data, and sunspot number 3. -/
theorem claim_C10_witness :
    (0 : ℚ) ≤ 3 ∧ (0 : ℚ) ≤ (LinFit.mk 1 2 1).stderr ∧
    ((ssn_to_rate (LinFit.mk 1 2 1) [] [] [] [] 3).2.1
        ≤ (ssn_to_rate (LinFit.mk 1 2 1) [] [] [] [] 3).1 ∧
      (ssn_to_rate (LinFit.mk 1 2 1) [] [] [] [] 3).1
        ≤ (ssn_to_rate (LinFit.mk 1 2 1) [] [] [] [] 3).2.2) :=
  ⟨by norm_num, zero_le_one,
    claim_C10 (LinFit.mk 1 2 1) [] [] [] [] 3 (by norm_num) zero_le_one⟩

/-- C6 counterexample: at the error triple (1, 1, 1) the code's total is the
rounded value 1.7, while √(1²+1²+1²) = √3 = 1.732…, so the stored total is
not equal to the unrounded quadrature sum. -/
theorem claim_C6_counterexample :
    ic_rate_25_pp_std 1 1 1 ≠ Real.sqrt (1^2 + 1^2 + 1^2) := by
  have h3 : ((1:ℝ)^2 + 1^2 + 1^2) = 3 := by norm_num
  have hlo : (17/10 : ℝ) ≤ Real.sqrt 3 := by
    rw [show (17/10 : ℝ) = √((17/10)^2) from (Real.sqrt_sq (by norm_num)).symm]
    exact Real.sqrt_le_sqrt (by norm_num)
  have hhi : Real.sqrt 3 < 7/4 := by
    rw [Real.sqrt_lt' (by norm_num)]
    norm_num
  have heval : ic_rate_25_pp_std 1 1 1 = ((17 : ℤ) : ℝ)/10 := by
    unfold ic_rate_25_pp_std
    rw [h3]
    refine np_round1_eval_lt ?_ ?_ ?_ <;> push_cast <;> linarith
  rw [heval, h3]
  intro hcon
  have hsq : Real.sqrt 3 ^ 2 = 3 := Real.sq_sqrt (by norm_num)
  rw [← hcon] at hsq
  norm_num at hsq

/-- C6 amended: the stored total per-year uncertainty is
√(e1² + e2² + e3²) rounded to one decimal place (identically in the PP19 and
MC20 scenarios), and it is invariant under every permutation of the three
error sources. -/
theorem claim_C6 (e1 e2 e3 : ℝ) :
    ic_rate_25_pp_std e1 e2 e3 = np_round1 (Real.sqrt (e1^2 + e2^2 + e3^2)) ∧
    ic_rate_25_mc20_std e1 e2 e3 = ic_rate_25_pp_std e1 e2 e3 ∧
    ic_rate_25_pp_std e1 e2 e3 = ic_rate_25_pp_std e2 e1 e3 ∧
    ic_rate_25_pp_std e1 e2 e3 = ic_rate_25_pp_std e1 e3 e2 ∧
    ic_rate_25_pp_std e1 e2 e3 = ic_rate_25_pp_std e2 e3 e1 ∧
    ic_rate_25_pp_std e1 e2 e3 = ic_rate_25_pp_std e3 e1 e2 ∧
    ic_rate_25_pp_std e1 e2 e3 = ic_rate_25_pp_std e3 e2 e1 := by
  unfold ic_rate_25_pp_std ic_rate_25_mc20_std
  refine ⟨rfl, rfl, ?_, ?_, ?_, ?_, ?_⟩ <;> ring_nf

theorem getD_map_div (v : List ℚ) (c : ℚ) (i : ℕ) :
    (v.map (fun x => x / c)).getD i 0 = v.getD i 0 / c := by
  by_cases h : i < v.length
  · rw [List.getD_eq_getElem _ _ (by simpa using h), List.getD_eq_getElem _ _ h,
      List.getElem_map]
  · rw [List.getD_eq_default _ _ (by simpa using not_lt.mp h),
      List.getD_eq_default _ _ (not_lt.mp h), zero_div]

theorem sum_at_daily (v : List ℚ) (idx : List ℕ) :
    sum_at (icmes_psp_predict_mc_daily v) idx
      = (idx.map (fun i => v.getD i 0 / (36524/100))).sum := by
  unfold sum_at icmes_psp_predict_mc_daily
  congr 1
  refine List.map_congr_left ?_
  intro i _
  exact getD_map_div v (36524/100) i

theorem below_indices_nil {psp_r : List ℚ} {thresh : ℚ} (h : ∀ x ∈ psp_r, thresh ≤ x) :
    psp_below_indices psp_r thresh = [] := by
  unfold psp_below_indices
  rw [List.filter_eq_nil_iff]
  intro i hi
  have hlen : i < psp_r.length := List.mem_range.mp hi
  have hmem : psp_r.getD i 0 ∈ psp_r := by
    rw [List.getD_eq_getElem _ _ hlen]
    exact List.getElem_mem hlen
  simp only [decide_eq_true_eq, not_lt]
  exact h _ hmem

/-- C7: the mission-exposure result is exactly the triple described by the
spec — select the indices with distance below the threshold, divide each of
the mean/lower/upper yearly-rate values by 365.24, and sum each curve over
the selected indices — and when no sample lies below the threshold the
result is the defined triple (0, 0, 0), not an error. -/
theorem claim_C7 (fmid flow fhigh psp_r : List ℚ) (thresh : ℚ) :
    psp_expected_counts fmid flow fhigh psp_r thresh
      = spec_mission_exposure fmid flow fhigh psp_r thresh ∧
    ((∀ x ∈ psp_r, thresh ≤ x) →
      psp_expected_counts fmid flow fhigh psp_r thresh = (0, 0, 0)) := by
  constructor
  · unfold psp_expected_counts spec_mission_exposure
    rw [sum_at_daily, sum_at_daily, sum_at_daily]
  · intro h
    unfold psp_expected_counts
    rw [below_indices_nil h]
    rfl

/-- C7 witness: with a distance series entirely at or above the threshold,
the expected-count triple is (0, 0, 0). -/
theorem claim_C7_witness :
    (∀ x ∈ ([1, 2] : List ℚ), (0 : ℚ) ≤ x) ∧
    psp_expected_counts [7] [8] [9] [1, 2] 0 = (0, 0, 0) := by
  have h : ∀ x ∈ ([1, 2] : List ℚ), (0 : ℚ) ≤ x := by
    intro x hx
    rcases List.mem_cons.mp hx with h1 | h1
    · rw [h1]; norm_num
    · rcases List.mem_cons.mp h1 with h2 | h2
      · rw [h2]; norm_num
      · simp at h2
  exact ⟨h, (claim_C7 [7] [8] [9] [1, 2] 0).2 h⟩

/-- C8: querying the densification interpolant at any time outside the span
of the control points — below the first or above the last, e.g. one day past
the last yearly control point — returns the explicit out-of-domain error
instead of an extrapolated value. -/
theorem claim_C8 (xs : List ℚ) (f : ℚ → ℚ) (t x0 xl : ℚ)
    (h0 : xs.head? = some x0) (hl : xs.getLast? = some xl)
    (hout : t < x0 ∨ xl < t) :
    interp1d_eval xs f t = .error .outOfDomain := by
  unfold interp1d_eval
  rw [h0, hl]
  simp only [if_pos hout]

/-- C8 witness: the interpolant over control points {0, 365} queried at
366 — one day past the last control point — fails out-of-domain. -/
theorem claim_C8_witness :
    ([0, 365] : List ℚ).head? = some 0 ∧ ([0, 365] : List ℚ).getLast? = some 365 ∧
    ((366 : ℚ) < 0 ∨ (365 : ℚ) < 366) ∧
    interp1d_eval [0, 365] (fun t => t) 366 = .error .outOfDomain := by
  have h0 : ([0, 365] : List ℚ).head? = some 0 := rfl
  have hl : ([0, 365] : List ℚ).getLast? = some 365 := rfl
  have hout : (366 : ℚ) < 0 ∨ (365 : ℚ) < 366 := Or.inr (by norm_num)
  exact ⟨h0, hl, hout, claim_C8 [0, 365] (fun t => t) 366 0 365 h0 hl hout⟩

/-- C9: at a concrete MAVEN-like input — sample times 0, 10, 10.1, 10.2 days,
all with defined magnitude data, year window (9.5, 10.5) — the code computes
0.1 available days (it resolves the slice-relative positions 0,1,2 of the
in-year defined samples against the FULL time array, measuring gaps among
times 0, 10, 10.1), whereas the claimed sum of sub-0.25-day gaps between the
in-year defined samples (times 10, 10.1, 10.2) is 0.2 days. -/
theorem claim_C9_divergence :
    total_data_days_yearly_mav [0, 10, 10 + 1/10, 10 + 2/10]
        [some 1, some 1, some 1, some 1] (19/2) (21/2) = some (1/10) ∧
    total_data_days_yearly_mav_claim [0, 10, 10 + 1/10, 10 + 2/10]
        [some 1, some 1, some 1, some 1] (19/2) (21/2) = some (1/5) ∧
    some (1/10 : ℚ) ≠ some (1/5 : ℚ) := by
  refine ⟨?_, ?_, by simp⟩ <;>
    norm_num [total_data_days_yearly_mav, total_data_days_yearly_mav_claim,
      mav_datas_ind, thisyear_indices, np_diff, List.range_succ]
